import Mathlib

/-!
# Verification of the prompt-api-playground chat application core

Shallow embedding of the session/chat-state synchronization layer of the
`prompt-api-playground` repository, and proofs about it.

The embedding covers:

* `storageManager.js` — `StorageManager.saveChatHistory`, `loadChatHistory`,
  `loadUIState` (the durable store with its capacity/eviction policy and
  quota-retry behaviour).
* `chatManager.js` — `ChatManager.createNewChat`, `getChat`, `addMessage`,
  `generateTitle`, `deleteChat`, `getActiveChat`, `save`.
* `script.js` — `promptModel`'s streaming-delta accumulation loop,
  `updateSession`, and the settings input handlers.

Conventions of the embedding:

* JavaScript numbers used by the app (timestamps, temperature, topK) are
  modelled as `Int` (timestamps from `Date.now()`) and `ℚ` (settings).
  `NaN` does not arise for the values the claims are about and is out of
  model.
* JavaScript strings are modelled as Lean `String` / `List Char` with
  code-point indexing.
* Fallible host operations (`localStorage.setItem`/`getItem`, `JSON.parse`,
  the model-session stream) are modelled as explicit outcome values; a
  `try`/`catch` maps a failure outcome to its handler's result.
* `Array.prototype.sort` (ES2019+) is a stable sort; a stable sort is
  uniquely determined by its comparator, so it is modelled by Mathlib's
  stable `List.insertionSort` with the same comparator.
* In-place mutation of `this.chats` is modelled by explicit state passing:
  each operation returns the new manager state.
-/

/-! ## Data model (`chatManager.js` chat objects) -/

/-- Conversation-scoped model configuration (`chat.settings`). -/
structure ChatSettings where
  temperature : ℚ
  topK : ℚ
deriving DecidableEq, Repr

/-- A chat message as built by `ChatManager.addMessage`:
`{ role, content, timestamp: Date.now() }`. -/
structure ChatMessage where
  role : String
  content : String
  timestamp : Int
deriving DecidableEq, Repr

/-- A chat record as built by `ChatManager.createNewChat`. -/
structure Chat where
  id : String
  title : String
  timestamp : Int
  messages : List ChatMessage
  settings : ChatSettings
deriving DecidableEq, Repr

/-- `MAX_CHATS` from `storageManager.js`. -/
def MAX_CHATS : Nat := 50

/-- The ordering used by `chats.sort((a, b) => b.timestamp - a.timestamp)`:
`a` may stay before `b` exactly when `b.timestamp ≤ a.timestamp`
(descending recency order). -/
def recencyRel (a b : Chat) : Prop := b.timestamp ≤ a.timestamp

instance : DecidableRel recencyRel := fun a b => Int.decLe b.timestamp a.timestamp

instance : IsTotal Chat recencyRel :=
  ⟨fun a b => le_total b.timestamp a.timestamp⟩

instance : IsTrans Chat recencyRel :=
  ⟨fun _ _ _ h1 h2 => le_trans h2 h1⟩

/-- The in-place stable sort performed by
`chats.sort((a, b) => b.timestamp - a.timestamp)`.  ES2019 `sort` is
stable, and a stable sort is determined by its comparator, so the stable
`insertionSort` with the same ordering is an exact model. -/
def sortByRecency (chats : List Chat) : List Chat :=
  chats.insertionSort recencyRel

/-! ## `StorageManager` (storageManager.js) -/

namespace StorageManager

/-- Outcome of a `localStorage.setItem` call, as discriminated by the
`catch` block of `saveChatHistory` (`error.name === "QuotaExceededError"`). -/
inductive SetItemResult where
  | ok
  | quotaExceeded
  | otherError
deriving DecidableEq, Repr

/--
`StorageManager.saveChatHistory(chats)`:

```js
try {
  const limitedChats = chats
    .sort((a, b) => b.timestamp - a.timestamp)
    .slice(0, MAX_CHATS);
  localStorage.setItem(STORAGE_KEYS.CHAT_HISTORY, JSON.stringify(limitedChats));
  return true;
} catch (error) {
  if (error.name === "QuotaExceededError") {
    this.saveChatHistory(chats.slice(0, Math.floor(MAX_CHATS / 2)));
  }
  return false;
}
```

`store` is the currently persisted chat-history value (`none` if the key
was never written).  `setItem` is the host oracle deciding whether a given
payload fits.  Because `.sort` mutates `chats` in place before `setItem`
can throw, the recursive retry `chats.slice(0, 25)` operates on the
already-sorted array.  The JS recursion has no structural bound (the quota
could keep failing), so the model takes a `fuel` parameter; every theorem
quantifies over all fuel values, and exhausted fuel leaves the store
unchanged, exactly like a retry chain that never succeeds.
-/
def saveChatHistory : Nat → (List Chat → SetItemResult) → Option (List Chat) →
    List Chat → Option (List Chat) × Bool
  | 0, _, store, _ => (store, false)
  | fuel + 1, setItem, store, chats =>
    let sorted := sortByRecency chats
    let limitedChats := sorted.take MAX_CHATS
    match setItem limitedChats with
    | .ok => (some limitedChats, true)
    | .quotaExceeded =>
      ((saveChatHistory fuel setItem store (sorted.take (MAX_CHATS / 2))).1, false)
    | .otherError => (store, false)

/-- Outcome of a `localStorage.getItem` call: a stored string, absence
(`null`), or a thrown error (caught by the surrounding `try`). -/
inductive GetItemResult where
  | value (s : String)
  | absent
  | error
deriving DecidableEq, Repr

/--
`StorageManager.loadChatHistory()`:

```js
try {
  const data = localStorage.getItem(STORAGE_KEYS.CHAT_HISTORY);
  return data ? JSON.parse(data) : [];
} catch (error) {
  return [];
}
```

`parse` models the host `JSON.parse` composed with the shape the caller
expects; a parse failure (exception) is `none` and lands in the `catch`.
Note `data ? … : []` also maps the falsy empty string to `[]`.
-/
def loadChatHistory (parse : String → Option (List Chat)) :
    GetItemResult → List Chat
  | .value data => if data = "" then [] else (parse data).getD []
  | .absent => []
  | .error => []

/-- UI display preferences persisted by `StorageManager`. -/
structure UIState where
  leftSidebarCollapsed : Bool
  rightSidebarCollapsed : Bool
deriving DecidableEq, Repr

/-- The default object returned by `loadUIState` when nothing is stored or
loading fails: `{ leftSidebarCollapsed: false, rightSidebarCollapsed: true }`. -/
def defaultUIState : UIState :=
  { leftSidebarCollapsed := false, rightSidebarCollapsed := true }

/--
`StorageManager.loadUIState()`: parsed stored value if present and
readable, otherwise the fixed default object (both on absence and in the
`catch` branch).
-/
def loadUIState (parse : String → Option UIState) : GetItemResult → UIState
  | .value data => if data = "" then defaultUIState else (parse data).getD defaultUIState
  | .absent => defaultUIState
  | .error => defaultUIState

end StorageManager

/-! ## `ChatManager` (chatManager.js) -/

namespace ChatManager

/-- The character class of the JavaScript regex `\s` (and of `String.trim`),
restricted to the code points that can occur here: ASCII whitespace, NBSP,
line/paragraph separators and the BOM. -/
def jsIsSpace (c : Char) : Bool :=
  c.toNat = 9 ∨ c.toNat = 10 ∨ c.toNat = 11 ∨ c.toNat = 12 ∨ c.toNat = 13 ∨
    c.toNat = 32 ∨ c.toNat = 160 ∨ c.toNat = 8232 ∨ c.toNat = 8233 ∨ c.toNat = 65279

/-- JavaScript `String.prototype.trim`: strip leading and trailing
whitespace. -/
def jsTrim (s : String) : String :=
  String.mk (((s.data.dropWhile jsIsSpace).reverse.dropWhile jsIsSpace).reverse)

/-- A sentence terminator, the class `[.!?]` of the regex in
`generateTitle`. -/
def isSentenceTerminator (c : Char) : Bool :=
  c = '.' ∨ c = '!' ∨ c = '?'

/-- `title.search(/[.!?]\s/)`: index of the first occurrence of a sentence
terminator immediately followed by whitespace, or `none` (JS `-1`).  The
pattern is two characters long, so the final character cannot start a
match. -/
def searchSentenceEnd : List Char → Option Nat
  | [] => none
  | [_] => none
  | c :: d :: rest =>
    if isSentenceTerminator c && jsIsSpace d then some 0
    else (searchSentenceEnd (d :: rest)).map (· + 1)

/--
`ChatManager.generateTitle(content)`:

```js
let title = content.trim();
const sentenceEnd = title.search(/[.!?]\s/);
if (sentenceEnd !== -1) { title = title.substring(0, sentenceEnd + 1); }
if (title.length > 50) { title = title.substring(0, 47) + "..."; }
return title || "New Chat";
```
-/
def generateTitle (content : String) : String :=
  let title := (jsTrim content).data
  let title :=
    match searchSentenceEnd title with
    | some sentenceEnd => title.take (sentenceEnd + 1)
    | none => title
  let title := if title.length > 50 then title.take 47 ++ "...".data else title
  if title = [] then "New Chat" else String.mk title

/-- JavaScript `x || d` for a possibly-absent number `x` (`none` models
`undefined`; `0` is falsy). -/
def jsOrQ (x : Option ℚ) (d : ℚ) : ℚ :=
  match x with
  | none => d
  | some v => if v = 0 then d else v

/-- The state owned by a `ChatManager` instance together with the durable
store it writes through (`this.chats`, `this.activeChat`, and the two
`localStorage` keys it saves to). -/
structure ManagerState where
  chats : List Chat
  activeChat : Option String
  storedHistory : Option (List Chat)
  storedActive : Option String
deriving DecidableEq, Repr

/--
`ChatManager.save()` on the successful-persistence path:

```js
StorageManager.saveChatHistory(this.chats);  // sorts this.chats in place,
                                             // stores the first MAX_CHATS
if (this.activeChat) { StorageManager.saveActiveChat(this.activeChat); }
```

`saveChatHistory` receives the live `this.chats` array and sorts it in
place before persisting, so the in-memory collection comes back in
recency order.  (The quota-failure branch of `saveChatHistory` is analysed
separately on the `StorageManager` model; it does not change the in-place
sort, which happens before `setItem` can throw.)
-/
def save (m : ManagerState) : ManagerState :=
  let sorted := sortByRecency m.chats
  { chats := sorted
    activeChat := m.activeChat
    storedHistory := some (sorted.take MAX_CHATS)
    storedActive :=
      match m.activeChat with
      | some i => some i
      | none => m.storedActive }

/--
`ChatManager.createNewChat(settings = {})`: build the chat record with
falsy-coalesced settings, `unshift` it, mark it active, `save`, return it.
`newId` stands for the generated `chat-${Date.now()}-…` identifier and
`now` for `Date.now()`.
-/
def createNewChat (m : ManagerState) (now : Int) (newId : String)
    (temperature topK : Option ℚ) : ManagerState × Chat :=
  let chat : Chat :=
    { id := newId
      title := "New Chat"
      timestamp := now
      messages := []
      settings :=
        { temperature := jsOrQ temperature 1
          topK := jsOrQ topK 3 } }
  (save { m with chats := chat :: m.chats, activeChat := some chat.id }, chat)

/-- `ChatManager.getChat(chatId)`: `this.chats.find((chat) => chat.id === chatId)`. -/
def getChat (m : ManagerState) (chatId : String) : Option Chat :=
  m.chats.find? (fun chat => chat.id == chatId)

/-- Replace the first element satisfying `p` by its image under `f`.
This is how mutating the object returned by `Array.prototype.find`
reflects into the containing array. -/
def updateFirst (p : Chat → Bool) (f : Chat → Chat) : List Chat → List Chat
  | [] => []
  | c :: cs => if p c then f c :: cs else c :: updateFirst p f cs

/-- The mutation `addMessage` performs on the found chat object: push the
message, derive the title when this is the very first message of a
still-sentinel-titled chat and the role is `"user"`, refresh the
timestamp. -/
def appendedChat (chat : Chat) (role content : String) (now : Int) : Chat :=
  let messages := chat.messages ++ [{ role := role, content := content, timestamp := now }]
  let title :=
    if chat.title = "New Chat" ∧ role = "user" ∧ messages.length = 1 then
      generateTitle content
    else chat.title
  { chat with messages := messages, title := title, timestamp := now }

/--
`ChatManager.addMessage(chatId, role, content)`:

```js
const chat = this.getChat(chatId);
if (chat) {
  chat.messages.push({ role, content, timestamp: Date.now() });
  if (chat.title === "New Chat" && role === "user" && chat.messages.length === 1) {
    chat.title = this.generateTitle(content);
  }
  chat.timestamp = Date.now();
  this.save();
  return chat;
}
return null;
```
-/
def addMessage (m : ManagerState) (chatId role content : String) (now : Int) :
    ManagerState × Option Chat :=
  match getChat m chatId with
  | none => (m, none)
  | some chat =>
    let chat' := appendedChat chat role content now
    (save { m with chats := updateFirst (fun c => c.id == chatId) (fun _ => chat') m.chats },
      some chat')

/-- `findIndex` + `splice(index, 1)` combined: remove the first element
satisfying `p`, or `none` when `findIndex` returns `-1`. -/
def spliceOut (p : Chat → Bool) : List Chat → Option (List Chat)
  | [] => none
  | c :: cs => if p c then some cs else (spliceOut p cs).map (c :: ·)

/--
`ChatManager.deleteChat(chatId)`:

```js
const index = this.chats.findIndex((chat) => chat.id === chatId);
if (index !== -1) {
  this.chats.splice(index, 1);
  if (this.activeChat === chatId) {
    this.activeChat = this.chats.length > 0 ? this.chats[0].id : null;
  }
  this.save();
  return true;
}
return false;
```
-/
def deleteChat (m : ManagerState) (chatId : String) : ManagerState × Bool :=
  match spliceOut (fun chat => chat.id == chatId) m.chats with
  | none => (m, false)
  | some chats' =>
    let active' :=
      if m.activeChat = some chatId then chats'.head?.map Chat.id
      else m.activeChat
    (save { m with chats := chats', activeChat := active' }, true)

/--
`ChatManager.getActiveChat()`:

```js
if (!this.activeChat && this.chats.length > 0) {
  this.activeChat = this.chats[0].id;
}
return this.activeChat ? this.getChat(this.activeChat) : null;
```
-/
def getActiveChat (m : ManagerState) : ManagerState × Option Chat :=
  match m.activeChat, m.chats with
  | none, c :: _ =>
    let m' := { m with activeChat := some c.id }
    (m', getChat m' c.id)
  | none, [] => (m, none)
  | some i, _ => (m, getChat m i)

end ChatManager

/-! ## `script.js`: streaming response assembly and `promptModel` -/

namespace ScriptJs

/-- One step of the delta extraction in `promptModel`'s streaming loop:

```js
const newChunk = chunk.startsWith(previousChunk)
  ? chunk.slice(previousChunk.length)
  : chunk;
```
-/
def extractDelta (previousChunk chunk : String) : String :=
  if previousChunk.data.isPrefixOf chunk.data then
    String.mk (chunk.data.drop previousChunk.length)
  else chunk

/-- The per-snapshot deltas emitted by the loop, starting from the given
`previousChunk` (initially `""`). -/
def streamDeltas : String → List String → List String
  | _, [] => []
  | previousChunk, chunk :: rest =>
    extractDelta previousChunk chunk :: streamDeltas chunk rest

/-- The accumulation loop itself: `result += newChunk; previousChunk = chunk;`
over the whole snapshot sequence. -/
def streamResultAux : String → String → List String → String
  | result, _, [] => result
  | result, previousChunk, chunk :: rest =>
    streamResultAux (result ++ extractDelta previousChunk chunk) chunk rest

/-- The final accumulated `result` after the streaming loop exhausts the
snapshot sequence (`result = ""`, `previousChunk = ""` initially). -/
def streamResult (chunks : List String) : String :=
  streamResultAux "" "" chunks

/-- Concatenation of a list of strings. -/
def concatAll (l : List String) : String :=
  l.foldr (· ++ ·) ""

/--
The state-affecting skeleton of `promptModel` in `script.js`:

```js
const prompt = promptInput.value.trim();
if (!prompt) return;
let activeChat = chatManager.getActiveChat();
if (!activeChat) {
  activeChat = chatManager.createNewChat({ temperature: …, topK: … });
}
chatManager.addMessage(activeChat.id, "user", prompt);
try {
  … for await (const chunk of stream) { result += newChunk; … } …
  chatManager.addMessage(activeChat.id, "assistant", result);
} catch (error) {
  // inline error shown; nothing persisted
}
```

`chunks` are the cumulative snapshots the stream yields before it either
exhausts (`streamOk = true`) or throws (`streamOk = false`, covering both
a failed session creation — then `chunks = []` — and a mid-stream
failure).  DOM rendering of each delta is a presentation effect outside
this model.
-/
def promptModel (m : ChatManager.ManagerState) (inputValue : String)
    (tempInput topKInput : ℚ) (chunks : List String) (streamOk : Bool)
    (now : Int) (newId : String) : ChatManager.ManagerState :=
  let prompt := ChatManager.jsTrim inputValue
  if prompt = "" then m
  else
    let r := ChatManager.getActiveChat m
    let r2 :=
      match r.2 with
      | some c => (r.1, c)
      | none => ChatManager.createNewChat r.1 now newId (some tempInput) (some topKInput)
    let m3 := (ChatManager.addMessage r2.1 r2.2.id "user" prompt now).1
    if streamOk then
      (ChatManager.addMessage m3 r2.2.id "assistant" (streamResult chunks) now).1
    else m3

end ScriptJs

/-! ## `script.js`: session lifecycle (`updateSession` and its callers) -/

namespace ScriptJs

/-- JavaScript `x || y` on numbers (`0` is falsy; `NaN` is out of model). -/
def jsOrNum (x y : ℚ) : ℚ := if x = 0 then y else x

/-- `Number(sessionTemperature.value) || settings.temperature || 1.0`
where `settings = activeChat?.settings || {}` (an absent field is falsy). -/
def resolvedTemperature (tempInput : ℚ) (activeSettings : Option ChatSettings) : ℚ :=
  jsOrNum tempInput (jsOrNum ((activeSettings.map ChatSettings.temperature).getD 0) 1)

/-- `Number(sessionTopK.value) || settings.topK || 3`. -/
def resolvedTopK (topKInput : ℚ) (activeSettings : Option ChatSettings) : ℚ :=
  jsOrNum topKInput (jsOrNum ((activeSettings.map ChatSettings.topK).getD 0) 3)

/-- Observable session lifecycle state of `script.js`: the `session`
variable (with the settings its handle was created with), the number of
handles created and not yet destroyed, and cumulative create/destroy
counters. -/
structure SessionState where
  session : Option ChatSettings
  liveHandles : Nat
  creates : Nat
  destroys : Nat
deriving DecidableEq, Repr

/--
`updateSession` in `script.js`:

```js
const updateSession = async () => {
  if (self.LanguageModel) {
    const activeChat = chatManager.getActiveChat();
    const settings = activeChat?.settings || {};
    session = await LanguageModel.create({
      temperature: Number(sessionTemperature.value) || settings.temperature || 1.0,
      topK: Number(sessionTopK.value) || settings.topK || 3,
      initialPrompts: [{ role: "system", content: SYSTEM_PROMPT }],
    });
  }
  updateStats();
};
```

It rebinds the `session` variable to a freshly created handle without
inspecting or destroying the previous one.
-/
def updateSession (lmAvailable : Bool) (tempInput topKInput : ℚ)
    (activeSettings : Option ChatSettings) (st : SessionState) : SessionState :=
  if lmAvailable then
    { session := some
        { temperature := resolvedTemperature tempInput activeSettings
          topK := resolvedTopK topKInput activeSettings }
      liveHandles := st.liveHandles + 1
      creates := st.creates + 1
      destroys := st.destroys }
  else st

/-- `session?.destroy(); session = null;` as performed by `createNewChat`,
`loadChat` and the reset handler in `script.js`. -/
def destroyCurrentSession (st : SessionState) : SessionState :=
  match st.session with
  | some _ =>
    { session := none
      liveHandles := st.liveHandles - 1
      creates := st.creates
      destroys := st.destroys + 1 }
  | none => st

/--
The session-lifecycle effect of the `sessionTopK` `input` handler:

```js
const activeChat = chatManager.getActiveChat();
if (activeChat) {
  activeChat.settings.topK = Number(sessionTopK.value);
  chatManager.save();
}
await updateSession();
```

It updates the active chat's settings and then calls `updateSession`; no
destroy happens on this path.  (The `sessionTemperature` handler is
symmetric.)
-/
def sessionTopKInputHandler (lmAvailable : Bool) (tempInput newTopK : ℚ)
    (activeSettings : Option ChatSettings) (st : SessionState) : SessionState :=
  updateSession lmAvailable tempInput newTopK
    (activeSettings.map (fun s => { s with topK := newTopK })) st

/-- The session-lifecycle effect of `createNewChat`/`loadChat` in
`script.js`: `session?.destroy(); session = null; … updateSession();`. -/
def newChatSessionReset (lmAvailable : Bool) (tempInput topKInput : ℚ)
    (activeSettings : Option ChatSettings) (st : SessionState) : SessionState :=
  updateSession lmAvailable tempInput topKInput activeSettings
    (destroyCurrentSession st)

/-- A state with exactly one live handle, created for settings
`{temperature := 1, topK := 3}` and bound to `session`. -/
def oneLiveSession : SessionState :=
  { session := some { temperature := 1, topK := 3 }
    liveHandles := 1
    creates := 1
    destroys := 0 }

end ScriptJs

/-! ## Shared concrete states for witnesses and counterexamples -/

/-- A chat touched at time 1. -/
def exampleChatOld : Chat :=
  { id := "a", title := "A", timestamp := 1, messages := [],
    settings := { temperature := 1, topK := 3 } }

/-- A chat touched at time 2. -/
def exampleChatNew : Chat :=
  { id := "b", title := "B", timestamp := 2, messages := [],
    settings := { temperature := 1, topK := 3 } }

/-- A fresh chat still carrying the sentinel title and no messages. -/
def exampleFreshChat : Chat :=
  { id := "c1", title := "New Chat", timestamp := 3, messages := [],
    settings := { temperature := 1, topK := 3 } }

/-- A manager whose in-memory collection is in insertion order
(least-recent first), with the older chat active. -/
def exampleManager : ChatManager.ManagerState :=
  { chats := [exampleChatOld, exampleChatNew], activeChat := some "a",
    storedHistory := none, storedActive := none }

/-- A manager holding a single fresh chat, which is active. -/
def exampleFreshManager : ChatManager.ManagerState :=
  { chats := [exampleFreshChat], activeChat := some "c1",
    storedHistory := none, storedActive := none }

/-! ## C1 — session replacement discipline -/

/--
C1, counterexample.  The claim asserts that re-establishing the session is
a no-op for unchanged conversation and settings, that a live handle is
destroyed before a new one is created, and that at most one live handle
exists.  The code's `updateSession` does none of this: starting from a
single live session created for `{temperature: 1, topK: 3}` and an active
chat with those same settings,

* calling `updateSession` with the same settings performs a create
  (creates goes 1 → 2) instead of the claimed no-op, and
* changing `topK` to 5 through the `sessionTopK` input handler performs
  zero destroys (claim: exactly one) and leaves two live handles
  (claim: at most one).
-/
theorem c1_counterexample :
    (ScriptJs.updateSession true 1 3 (some { temperature := 1, topK := 3 })
        ScriptJs.oneLiveSession).creates = 2 ∧
    (ScriptJs.sessionTopKInputHandler true 1 5 (some { temperature := 1, topK := 3 })
        ScriptJs.oneLiveSession).destroys = 0 ∧
    (ScriptJs.sessionTopKInputHandler true 1 5 (some { temperature := 1, topK := 3 })
        ScriptJs.oneLiveSession).liveHandles = 2 := by
  decide

/--
C1, amended.  `updateSession` never inspects and never destroys the live
session: every call (with the capability available) performs exactly one
create and zero destroys, rebinds `session` to a handle bound to the
resolved settings, and increases the number of live handles by one — even
when the settings are unchanged.  Consequently the `sessionTopK` input
handler performs one create and zero destroys.  A destroy happens only on
the explicit `session?.destroy()` paths (new chat / load chat / reset),
which destroy the current handle exactly when one is bound and then
create one new handle.
-/
theorem c1_update_session_amended (tempInput topKInput : ℚ)
    (activeSettings : Option ChatSettings) (st : ScriptJs.SessionState) :
    (ScriptJs.updateSession true tempInput topKInput activeSettings st).creates
        = st.creates + 1 ∧
    (ScriptJs.updateSession true tempInput topKInput activeSettings st).destroys
        = st.destroys ∧
    (ScriptJs.updateSession true tempInput topKInput activeSettings st).liveHandles
        = st.liveHandles + 1 ∧
    (ScriptJs.updateSession true tempInput topKInput activeSettings st).session
        = some { temperature := ScriptJs.resolvedTemperature tempInput activeSettings
                 topK := ScriptJs.resolvedTopK topKInput activeSettings } ∧
    (ScriptJs.sessionTopKInputHandler true tempInput topKInput activeSettings st).creates
        = st.creates + 1 ∧
    (ScriptJs.sessionTopKInputHandler true tempInput topKInput activeSettings st).destroys
        = st.destroys ∧
    (ScriptJs.newChatSessionReset true tempInput topKInput activeSettings st).creates
        = st.creates + 1 ∧
    (ScriptJs.newChatSessionReset true tempInput topKInput activeSettings st).destroys
        = st.destroys + (if st.session.isSome then 1 else 0) := by
  cases st with
  | mk session liveHandles creates destroys =>
    cases session <;>
      simp [ScriptJs.updateSession, ScriptJs.sessionTopKInputHandler,
        ScriptJs.newChatSessionReset, ScriptJs.destroyCurrentSession]

/-! ## C2 — streaming delta extraction -/

namespace ScriptJs

theorem concatAll_nil : concatAll [] = "" := rfl

theorem concatAll_cons (a : String) (l : List String) :
    concatAll (a :: l) = a ++ concatAll l := rfl

/-- The accumulation loop equals its starting `result` followed by the
concatenation of the deltas it is still going to emit. -/
theorem streamResultAux_eq (chunks : List String) :
    ∀ result previousChunk,
      streamResultAux result previousChunk chunks
        = result ++ concatAll (streamDeltas previousChunk chunks) := by
  induction chunks with
  | nil =>
    intro result previousChunk
    simp [streamResultAux, streamDeltas, concatAll_nil, String.append_empty]
  | cons chunk rest ih =>
    intro result previousChunk
    rw [streamResultAux, streamDeltas, concatAll_cons, ih, String.append_assoc]

end ScriptJs

/--
C2.  The streaming assembler of `promptModel` computes, for each new
cumulative snapshot, the delta: the suffix beyond the previous snapshot
when the previous snapshot is a prefix of the new one, and the whole new
snapshot otherwise (`extractDelta`); the final accumulated `result` — the
content handed to `addMessage(activeChat.id, "assistant", result)` — is
exactly the concatenation of all emitted deltas.  On the snapshots
`["Hi", "Hi there", "Hi there!"]` the deltas are `["Hi", " there", "!"]`
and the final content is `"Hi there!"`.
-/
theorem c2_streaming_delta_extraction :
    (∀ chunks : List String,
      ScriptJs.streamResult chunks
        = ScriptJs.concatAll (ScriptJs.streamDeltas "" chunks)) ∧
    ScriptJs.streamDeltas "" ["Hi", "Hi there", "Hi there!"]
        = ["Hi", " there", "!"] ∧
    ScriptJs.streamResult ["Hi", "Hi there", "Hi there!"] = "Hi there!" := by
  refine ⟨fun chunks => ?_, by decide, by decide⟩
  rw [ScriptJs.streamResult, ScriptJs.streamResultAux_eq, String.empty_append]

/-! ## C6 — loads never throw and default on bad data -/

/--
C6.  The load operations are total for every stored value and every
outcome of the host `JSON.parse` (modelled as an arbitrary partial
function): `loadChatHistory` returns the parsed value when the key holds a
non-empty readable string and the empty list in every other case (key
absent, `getItem` throwing, empty string, unparsable data);
`loadUIState` likewise returns the parsed value or the fixed default
object `{leftSidebarCollapsed: false, rightSidebarCollapsed: true}`.
-/
theorem c6_load_never_throws :
    (∀ parse, StorageManager.loadChatHistory parse .error = []
        ∧ StorageManager.loadChatHistory parse .absent = []
        ∧ StorageManager.loadChatHistory parse (.value "") = []) ∧
    (∀ parse s, parse s = none →
        StorageManager.loadChatHistory parse (.value s) = []) ∧
    (∀ parse s v, s ≠ "" → parse s = some v →
        StorageManager.loadChatHistory parse (.value s) = v) ∧
    (∀ parse, StorageManager.loadUIState parse .error = StorageManager.defaultUIState
        ∧ StorageManager.loadUIState parse .absent = StorageManager.defaultUIState
        ∧ StorageManager.loadUIState parse (.value "") = StorageManager.defaultUIState) ∧
    (∀ parse s, parse s = none →
        StorageManager.loadUIState parse (.value s) = StorageManager.defaultUIState) ∧
    (∀ parse s v, s ≠ "" → parse s = some v →
        StorageManager.loadUIState parse (.value s) = v) := by
  refine ⟨fun parse => ⟨rfl, rfl, rfl⟩, fun parse s h => ?_, fun parse s v hs h => ?_,
    fun parse => ⟨rfl, rfl, rfl⟩, fun parse s h => ?_, fun parse s v hs h => ?_⟩
  · simp [StorageManager.loadChatHistory, h]
  · simp [StorageManager.loadChatHistory, h, hs]
  · simp [StorageManager.loadUIState, h]
  · simp [StorageManager.loadUIState, h, hs]

/-- C6, witness: the theorem applied at concrete parse functions and
stored values. -/
theorem c6_load_never_throws_witness :
    StorageManager.loadChatHistory (fun _ => none) (.value "zzz") = [] ∧
    StorageManager.loadChatHistory (fun _ => some [exampleChatOld]) (.value "h")
      = [exampleChatOld] ∧
    StorageManager.loadUIState (fun _ => none) (.value "zzz")
      = StorageManager.defaultUIState ∧
    StorageManager.loadUIState (fun _ => some ⟨true, false⟩) (.value "u")
      = ⟨true, false⟩ :=
  ⟨c6_load_never_throws.2.1 (fun _ => none) "zzz" rfl,
   c6_load_never_throws.2.2.1 (fun _ => some [exampleChatOld]) "h" [exampleChatOld]
     (by decide) rfl,
   c6_load_never_throws.2.2.2.2.1 (fun _ => none) "zzz" rfl,
   c6_load_never_throws.2.2.2.2.2 (fun _ => some ⟨true, false⟩) "u" ⟨true, false⟩
     (by decide) rfl⟩

/-! ## C9 — falsy settings silently replaced by defaults -/

/--
C9.  `createNewChat` coalesces falsy provided settings into the defaults:
a provided `temperature: 0` is stored as `1.0` and a provided `topK: 0`
as `3` (as is an absent field), while any non-zero provided value is
stored unchanged.
-/
theorem c9_createNewChat_falsy_defaults :
    (∀ m now newId k, ((ChatManager.createNewChat m now newId (some 0) k).2).settings.temperature = 1) ∧
    (∀ m now newId t, ((ChatManager.createNewChat m now newId t (some 0)).2).settings.topK = 3) ∧
    (∀ m now newId, ((ChatManager.createNewChat m now newId none none).2).settings
        = { temperature := 1, topK := 3 }) ∧
    (∀ m now newId (t k : ℚ), t ≠ 0 → k ≠ 0 →
      ((ChatManager.createNewChat m now newId (some t) (some k)).2).settings
        = { temperature := t, topK := k }) := by
  refine ⟨fun m now newId k => rfl, fun m now newId t => rfl, fun m now newId => rfl,
    fun m now newId t k ht hk => ?_⟩
  simp [ChatManager.createNewChat, ChatManager.jsOrQ, ht, hk]

/-- C9, witness: concrete non-zero settings are stored unchanged, and
concrete zero settings become the defaults. -/
theorem c9_createNewChat_falsy_defaults_witness :
    ((ChatManager.createNewChat exampleManager 7 "n" (some 0) (some 5)).2).settings.temperature = 1 ∧
    ((ChatManager.createNewChat exampleManager 7 "n" (some (1/2)) (some 0)).2).settings.topK = 3 ∧
    ((ChatManager.createNewChat exampleManager 7 "n" (some (1/2)) (some 5)).2).settings
      = { temperature := 1/2, topK := 5 } :=
  ⟨c9_createNewChat_falsy_defaults.1 exampleManager 7 "n" (some 5),
   c9_createNewChat_falsy_defaults.2.1 exampleManager 7 "n" (some (1/2)),
   c9_createNewChat_falsy_defaults.2.2.2 exampleManager 7 "n" (1/2) 5
     (by norm_num) (by norm_num)⟩

/-! ## C10 — deleting a missing id is a total no-op -/

namespace ChatManager

/-- `findIndex` returns `-1` when no element matches, so `spliceOut`
returns `none`. -/
theorem spliceOut_eq_none {p : Chat → Bool} :
    ∀ {l : List Chat}, (∀ c ∈ l, ¬ p c) → spliceOut p l = none := by
  intro l
  induction l with
  | nil => intro _; rfl
  | cons c cs ih =>
    intro h
    rw [spliceOut, if_neg (h c (List.mem_cons_self c cs)), ih fun x hx => h x (List.mem_cons_of_mem c hx)]
    rfl

end ChatManager

/--
C10.  Deleting an id that no chat in the collection carries returns
`false` and leaves the whole repository state — in-memory chats, active
pointer, and both persisted values — exactly as it was: the not-found
path performs no splice and no save.
-/
theorem c10_delete_missing_id_noop (m : ChatManager.ManagerState) (chatId : String)
    (h : ∀ c ∈ m.chats, c.id ≠ chatId) :
    ChatManager.deleteChat m chatId = (m, false) := by
  rw [ChatManager.deleteChat, ChatManager.spliceOut_eq_none]
  intro c hc
  simp only [beq_iff_eq]
  exact h c hc

/-- C10, witness: deleting the unused id `"z"` from a concrete two-chat
manager changes nothing and reports `false`. -/
theorem c10_delete_missing_id_noop_witness :
    ChatManager.deleteChat exampleManager "z" = (exampleManager, false) :=
  c10_delete_missing_id_noop exampleManager "z" (by decide)

/-! ## C8 — saving reorders the caller's array into recency order -/

/--
C8.  `ChatManager.save` passes the live `this.chats` array to
`StorageManager.saveChatHistory`, which sorts it in place by descending
`timestamp` before persisting: after any save the in-memory collection is
exactly the stable descending-recency reordering of what it was (same
elements, recency order, not insertion order).  On a concrete manager
whose collection is in insertion order (oldest first), saving visibly
reorders it.
-/
theorem c8_save_sorts_in_place :
    (∀ m, (ChatManager.save m).chats = sortByRecency m.chats) ∧
    (∀ m, List.Sorted recencyRel (ChatManager.save m).chats) ∧
    (∀ m, (ChatManager.save m).chats.Perm m.chats) ∧
    (ChatManager.save exampleManager).chats ≠ exampleManager.chats := by
  refine ⟨fun m => rfl, fun m => ?_, fun m => ?_, by decide⟩
  · exact List.sorted_insertionSort recencyRel m.chats
  · exact List.perm_insertionSort recencyRel m.chats

/-! ## C3 — capacity bound and least-recent eviction at every save -/

theorem sortByRecency_sorted (l : List Chat) :
    List.Sorted recencyRel (sortByRecency l) :=
  List.sorted_insertionSort recencyRel l

theorem sortByRecency_perm (l : List Chat) : (sortByRecency l).Perm l :=
  List.perm_insertionSort recencyRel l

theorem sortByRecency_of_sorted {l : List Chat}
    (h : List.Sorted recencyRel l) : sortByRecency l = l :=
  List.Sorted.insertionSort_eq h

/-- A prefix of a recency-sorted list is recency-sorted. -/
theorem sorted_take_sortByRecency (l : List Chat) (n : Nat) :
    List.Sorted recencyRel ((sortByRecency l).take n) :=
  List.Pairwise.sublist (List.take_sublist n (sortByRecency l)) (sortByRecency_sorted l)

namespace StorageManager

/-- Whatever `saveChatHistory` leaves in the store is either the previous
value (nothing was written) or the first `k ≤ MAX_CHATS` chats of the
recency-sorted input, for some `k` — on the direct path and on every
quota-shrink retry alike. -/
theorem saveChatHistory_store_shape (fuel : Nat)
    (setItem : List Chat → SetItemResult) (store : Option (List Chat)) :
    ∀ chats,
      (saveChatHistory fuel setItem store chats).1 = store ∨
      ∃ k, k ≤ MAX_CHATS ∧
        (saveChatHistory fuel setItem store chats).1
          = some ((sortByRecency chats).take k) := by
  induction fuel with
  | zero => intro chats; exact Or.inl rfl
  | succ fuel ih =>
    intro chats
    rw [saveChatHistory]
    cases hsi : setItem ((sortByRecency chats).take MAX_CHATS) with
    | ok =>
      simp only [hsi]
      exact Or.inr ⟨MAX_CHATS, le_rfl, rfl⟩
    | quotaExceeded =>
      simp only [hsi]
      rcases ih ((sortByRecency chats).take (MAX_CHATS / 2)) with h | ⟨k, hk, h⟩
      · exact Or.inl h
      · refine Or.inr ⟨min k (MAX_CHATS / 2), ?_, ?_⟩
        · exact le_trans (min_le_left _ _) hk
        · rw [h, sortByRecency_of_sorted (sorted_take_sortByRecency chats (MAX_CHATS / 2)),
            List.take_take]
    | otherError =>
      simp only [hsi]
      exact Or.inl trivial

end StorageManager

/--
C3.  After any `saveChatHistory` call — for every input list, every
quota-failure behaviour of the host store, and every retry depth — the
persisted collection either is left untouched (a save attempt that wrote
nothing) or consists of the first `k ≤ 50` entries of the input sorted by
descending `createdOrTouchedAt` (here `timestamp`): it never exceeds the
`MAX_CHATS = 50` capacity, the kept and dropped entries together are a
permutation of the input, and every dropped entry is at most as recent as
every kept entry, i.e. eviction removes the least-recently-touched
entries first.  This covers the shrink-and-retry path taken after a quota
failure, which keeps at most the `MAX_CHATS / 2 = 25` most recent entries.
-/
theorem c3_capacity_bound_and_eviction (fuel : Nat)
    (setItem : List Chat → StorageManager.SetItemResult)
    (store : Option (List Chat)) (chats : List Chat) :
    (StorageManager.saveChatHistory fuel setItem store chats).1 = store ∨
    ∃ k, (StorageManager.saveChatHistory fuel setItem store chats).1
          = some ((sortByRecency chats).take k) ∧
      ((sortByRecency chats).take k).length ≤ MAX_CHATS ∧
      ((sortByRecency chats).take k ++ (sortByRecency chats).drop k).Perm chats ∧
      ∀ a ∈ (sortByRecency chats).take k, ∀ b ∈ (sortByRecency chats).drop k,
        b.timestamp ≤ a.timestamp := by
  rcases StorageManager.saveChatHistory_store_shape fuel setItem store chats with h | ⟨k, hk, h⟩
  · exact Or.inl h
  · refine Or.inr ⟨k, h, ?_, ?_, ?_⟩
    · rw [List.length_take]
      exact le_trans (min_le_left _ _) hk
    · rw [List.take_append_drop]
      exact sortByRecency_perm chats
    · have hs := sortByRecency_sorted chats
      rw [← List.take_append_drop k (sortByRecency chats), List.Sorted,
        List.pairwise_append] at hs
      exact hs.2.2

/-! ## C4 — title derivation from the first message -/

/-- Whether the text continues with a whitespace character. -/
def claimHeadSpace (rest : List Char) : Bool :=
  match rest.head? with
  | some d => ChatManager.jsIsSpace d
  | none => false

/-- The claim's description of the sentence cut, stated as a direct scan:
keep characters up to and including the first sentence terminator that is
immediately followed by whitespace; if there is none, keep the whole
text. -/
def claimTitleCut : List Char → List Char
  | [] => []
  | c :: rest =>
    if ChatManager.isSentenceTerminator c && claimHeadSpace rest then [c]
    else c :: claimTitleCut rest

/-- The title the (amended) claim describes, built from its words: trim the
text, truncate at the first sentence terminator followed by whitespace
(keeping the terminator) if one exists, else keep the text; if longer than
50 characters replace it by its first 47 characters plus `"..."`; if empty
use the sentinel. -/
def claimDerivedTitle (content : String) : String :=
  let t := (ChatManager.jsTrim content).data
  let t := claimTitleCut t
  let t := if t.length > 50 then t.take 47 ++ "...".data else t
  if t = [] then "New Chat" else String.mk t

/-- The regex-search-then-substring computation of `generateTitle` agrees
with the direct scan of the claim. -/
theorem searchSentenceEnd_take_eq_claimTitleCut :
    ∀ cs : List Char,
      (match ChatManager.searchSentenceEnd cs with
        | some sentenceEnd => cs.take (sentenceEnd + 1)
        | none => cs) = claimTitleCut cs := by
  intro cs
  induction cs with
  | nil => rfl
  | cons c rest ih =>
    cases rest with
    | nil => simp [ChatManager.searchSentenceEnd, claimTitleCut, claimHeadSpace]
    | cons d rest2 =>
      have hhead : claimHeadSpace (d :: rest2) = ChatManager.jsIsSpace d := rfl
      by_cases h : (ChatManager.isSentenceTerminator c && ChatManager.jsIsSpace d) = true
      · rw [ChatManager.searchSentenceEnd, if_pos h, claimTitleCut, hhead, if_pos h]
        rfl
      · rw [ChatManager.searchSentenceEnd, if_neg h, claimTitleCut, hhead, if_neg h]
        cases hs : ChatManager.searchSentenceEnd (d :: rest2) with
        | none =>
          rw [hs] at ih
          exact congrArg (fun l => c :: l) ih
        | some i =>
          rw [hs] at ih
          exact congrArg (fun l => c :: l) ih

/--
C4, counterexample.  The claim derives the title from the raw message
text, but `generateTitle` first calls `content.trim()`: appending
`" hi"` (leading space, no sentence terminator, well under 50 characters)
as the first user message of a sentinel-titled conversation produces the
title `"hi"`, not the raw text `" hi"` the claim requires.
-/
theorem c4_counterexample :
    ((ChatManager.addMessage exampleFreshManager "c1" "user" " hi" 5).2.map Chat.title)
        = some "hi" ∧ ("hi" : String) ≠ " hi" := by
  decide

/--
C4, amended.  For every message text appended as the first message (the
conversation has no messages yet) with role `"user"` to a conversation
whose title is still the sentinel `"New Chat"`, the derived title is: the
*trimmed* text truncated at the first sentence terminator followed by
whitespace if one exists (keeping the terminator), else the trimmed text;
then truncated to 50 characters with a trailing ellipsis marker if longer
(first 47 characters + `"..."`); and if the result is empty the sentinel
is kept.  `"Hello. How are you?"` yields `"Hello."`, an 80-character
non-terminated input yields its first 47 characters plus `"..."`, and
`""` leaves the title `"New Chat"`.
-/
theorem c4_title_derivation_amended :
    (∀ content, ChatManager.generateTitle content = claimDerivedTitle content) ∧
    (∀ m chatId content now c,
      ChatManager.getChat m chatId = some c →
      c.title = "New Chat" →
      c.messages = [] →
      ((ChatManager.addMessage m chatId "user" content now).2.map Chat.title)
        = some (claimDerivedTitle content)) ∧
    ChatManager.generateTitle "Hello. How are you?" = "Hello." ∧
    ChatManager.generateTitle (String.mk (List.replicate 80 'a'))
      = String.mk (List.replicate 47 'a') ++ "..." ∧
    ChatManager.generateTitle "" = "New Chat" := by
  have heq : ∀ content, ChatManager.generateTitle content = claimDerivedTitle content := by
    intro content
    rw [ChatManager.generateTitle, claimDerivedTitle,
      searchSentenceEnd_take_eq_claimTitleCut]
  refine ⟨heq, ?_, by decide, by decide, by decide⟩
  intro m chatId content now c hfind htitle hmsgs
  rw [ChatManager.addMessage, hfind]
  simp [ChatManager.appendedChat, htitle, hmsgs, heq]

/-- C4, witness: the amended derivation applied to the concrete fresh
manager and the claim's own first example. -/
theorem c4_title_derivation_amended_witness :
    ((ChatManager.addMessage exampleFreshManager "c1" "user" "Hello. How are you?" 5).2.map
        Chat.title) = some (claimDerivedTitle "Hello. How are you?") :=
  c4_title_derivation_amended.2.1 exampleFreshManager "c1" "Hello. How are you?" 5
    exampleFreshChat (by decide) (by decide) (by decide)

/-! ## Lemmas on `find?`, `updateFirst` and `spliceOut` -/

namespace ChatManager

/-- In a collection with no duplicate ids, `find` by id returns any member
carrying that id. -/
theorem find?_id_of_mem_nodup {c : Chat} {i : String} :
    ∀ {l : List Chat}, c ∈ l → c.id = i → (l.map Chat.id).Nodup →
      l.find? (fun chat => chat.id == i) = some c := by
  intro l
  induction l with
  | nil => intro h; exact absurd h (List.not_mem_nil c)
  | cons a l ih =>
    intro hmem hid hnodup
    rw [List.map_cons, List.nodup_cons] at hnodup
    rcases List.mem_cons.mp hmem with rfl | hmem'
    · exact List.find?_cons_of_pos l (beq_iff_eq.mpr hid)
    · have ha : (a.id == i) = false := by
        refine beq_eq_false_iff_ne.mpr fun hai => hnodup.1 ?_
        rw [hai, ← hid]
        exact List.mem_map_of_mem Chat.id hmem'
      rw [List.find?_cons_of_neg l (by simp [ha]), ih hmem' hid hnodup.2]

/-- `find` by id is invariant under permutation of a duplicate-free
collection. -/
theorem find?_id_of_perm {l l' : List Chat} {i : String} {c : Chat}
    (hperm : l.Perm l') (hnodup : (l.map Chat.id).Nodup)
    (h : l.find? (fun chat => chat.id == i) = some c) :
    l'.find? (fun chat => chat.id == i) = some c := by
  have hc := List.find?_some h
  have hmem := List.mem_of_find?_eq_some h
  exact find?_id_of_mem_nodup (hperm.mem_iff.mp hmem) (beq_iff_eq.mp hc)
    (((List.Perm.map Chat.id hperm).nodup_iff).mp hnodup)

/-- Replacing the first match by a value that still matches makes that
value the first match. -/
theorem find?_updateFirst_const {p : Chat → Bool} {c c' : Chat}
    (hc' : p c' = true) :
    ∀ {l : List Chat}, l.find? p = some c →
      (updateFirst p (fun _ => c') l).find? p = some c' := by
  intro l
  induction l with
  | nil => intro h; exact absurd h (by simp)
  | cons a l ih =>
    intro h
    by_cases ha : p a = true
    · rw [updateFirst, if_pos ha]
      exact List.find?_cons_of_pos l hc'
    · rw [List.find?_cons_of_neg l ha] at h
      rw [updateFirst, if_neg ha,
        List.find?_cons_of_neg (updateFirst p (fun _ => c') l) ha, ih h]

/-- `updateFirst` with an id-preserving update leaves the id sequence
unchanged. -/
theorem map_id_updateFirst {p : Chat → Bool} {f : Chat → Chat}
    (hf : ∀ x, p x = true → (f x).id = x.id) :
    ∀ l : List Chat, (updateFirst p f l).map Chat.id = l.map Chat.id := by
  intro l
  induction l with
  | nil => rfl
  | cons a l ih =>
    by_cases ha : p a = true
    · rw [updateFirst, if_pos ha, List.map_cons, List.map_cons, hf a ha]
    · rw [updateFirst, if_neg (by simpa using ha), List.map_cons, List.map_cons, ih]

/-- If `findIndex` finds nothing, every element fails the test. -/
theorem spliceOut_none_forall {p : Chat → Bool} :
    ∀ {l : List Chat}, spliceOut p l = none → ∀ x ∈ l, p x = false := by
  intro l
  induction l with
  | nil => intro _ x hx; exact absurd hx (List.not_mem_nil x)
  | cons a l ih =>
    intro h x hx
    by_cases ha : p a = true
    · rw [spliceOut, if_pos ha] at h
      exact absurd h (by simp)
    · rw [spliceOut, if_neg (by simpa using ha)] at h
      rcases List.mem_cons.mp hx with rfl | hx'
      · simpa using ha
      · exact ih (by cases hs : spliceOut p l with
          | none => rfl
          | some l2 => rw [hs] at h; exact absurd h (by simp)) x hx'

/-- A successful `findIndex` + `splice(index, 1)` removes exactly the
first matching element: the list splits around it, everything before it
fails the test, and the result is the two sides joined. -/
theorem spliceOut_some {p : Chat → Bool} :
    ∀ {l l' : List Chat}, spliceOut p l = some l' →
      ∃ l1 x l2, l = l1 ++ x :: l2 ∧ p x = true ∧ (∀ y ∈ l1, p y = false) ∧
        l' = l1 ++ l2 := by
  intro l
  induction l with
  | nil => intro l' h; exact absurd h (by simp [spliceOut])
  | cons a l ih =>
    intro l' h
    by_cases ha : p a = true
    · rw [spliceOut, if_pos ha] at h
      exact ⟨[], a, l, rfl, ha, by simp, (Option.some_inj.mp h).symm⟩
    · rw [spliceOut, if_neg (by simpa using ha)] at h
      cases hs : spliceOut p l with
      | none => rw [hs] at h; exact absurd h (by simp)
      | some l2 =>
        rw [hs] at h
        obtain ⟨l1, x, l2', hsplit, hpx, hclean, hres⟩ := ih hs
        refine ⟨a :: l1, x, l2', by rw [hsplit]; rfl, hpx, ?_, ?_⟩
        · intro y hy
          rcases List.mem_cons.mp hy with rfl | hy'
          · simpa using ha
          · exact hclean y hy'
        · rw [← Option.some_inj.mp h, hres]
          rfl

/-- `find?` over a list whose prefix fails the test returns the first
matching element. -/
theorem find?_clean_append {p : Chat → Bool} {x : Chat} (l2 : List Chat)
    (hpx : p x = true) :
    ∀ l1 : List Chat, (∀ y ∈ l1, p y = false) →
      (l1 ++ x :: l2).find? p = some x := by
  intro l1
  induction l1 with
  | nil =>
    intro _
    rw [List.nil_append]
    exact List.find?_cons_of_pos l2 hpx
  | cons a l1 ih =>
    intro hclean
    rw [List.cons_append,
      List.find?_cons_of_neg (l1 ++ x :: l2) (by simp [hclean a (List.mem_cons_self a l1)]),
      ih fun y hy => hclean y (List.mem_cons_of_mem a hy)]

end ChatManager

namespace ChatManager

/-- Full characterization of `addMessage` on a found chat in a
duplicate-free collection: it returns the updated chat, re-finding the id
afterwards yields exactly the updated chat, and the id sequence stays
duplicate-free. -/
theorem addMessage_spec {m : ManagerState} {chatId : String} {c : Chat}
    (role content : String) (now : Int)
    (hfind : getChat m chatId = some c)
    (hnodup : (m.chats.map Chat.id).Nodup) :
    (addMessage m chatId role content now).2 = some (appendedChat c role content now) ∧
    getChat (addMessage m chatId role content now).1 chatId
      = some (appendedChat c role content now) ∧
    ((addMessage m chatId role content now).1.chats.map Chat.id).Nodup := by
  have hfind' : m.chats.find? (fun chat => chat.id == chatId) = some c := hfind
  have hcid : (c.id == chatId) = true :=
    List.find?_some (p := fun chat => chat.id == chatId) (a := c) hfind'
  have hcid' : ((appendedChat c role content now).id == chatId) = true := hcid
  have hupdated :
      (updateFirst (fun chat => chat.id == chatId)
          (fun _ => appendedChat c role content now) m.chats).map Chat.id
        = m.chats.map Chat.id := by
    refine map_id_updateFirst (fun x hx => ?_) m.chats
    rw [show (appendedChat c role content now).id = c.id from rfl,
      beq_iff_eq.mp hcid, beq_iff_eq.mp hx]
  have hfind2 :
      (updateFirst (fun chat => chat.id == chatId)
          (fun _ => appendedChat c role content now) m.chats).find?
          (fun chat => chat.id == chatId)
        = some (appendedChat c role content now) :=
    find?_updateFirst_const hcid' hfind'
  have hnodup2 :
      ((updateFirst (fun chat => chat.id == chatId)
          (fun _ => appendedChat c role content now) m.chats).map Chat.id).Nodup := by
    rw [hupdated]; exact hnodup
  simp only [addMessage, hfind]
  refine ⟨trivial, ?_, ?_⟩
  · show (sortByRecency (updateFirst (fun chat => chat.id == chatId)
        (fun _ => appendedChat c role content now) m.chats)).find?
        (fun chat => chat.id == chatId) = some (appendedChat c role content now)
    exact find?_id_of_perm (sortByRecency_perm _).symm hnodup2 hfind2
  · show ((sortByRecency (updateFirst (fun chat => chat.id == chatId)
        (fun _ => appendedChat c role content now) m.chats)).map Chat.id).Nodup
    exact ((List.Perm.map Chat.id (sortByRecency_perm _)).nodup_iff).mpr hnodup2

/-- If `getActiveChat` returns a chat, that chat is found in the returned
state under some id. -/
theorem getActiveChat_found {m m' : ManagerState} {c : Chat}
    (h : getActiveChat m = (m', some c)) :
    ∃ i, getChat m' i = some c := by
  unfold getActiveChat at h
  cases hm : m.activeChat with
  | none =>
    cases hc : m.chats with
    | nil =>
      rw [hm, hc] at h
      simp at h
    | cons a l =>
      rw [hm, hc] at h
      simp only [Prod.mk.injEq] at h
      obtain ⟨h1, h2⟩ := h
      exact ⟨a.id, by rw [← h1]; exact h2⟩
  | some i =>
    rw [hm] at h
    simp only [Prod.mk.injEq] at h
    obtain ⟨h1, h2⟩ := h
    exact ⟨i, by rw [← h1]; exact h2⟩

/-- `getActiveChat` does not change the chats list. -/
theorem getActiveChat_chats (m : ManagerState) :
    (getActiveChat m).1.chats = m.chats := by
  unfold getActiveChat
  cases hm : m.activeChat with
  | none =>
    cases hc : m.chats with
    | nil => exact hc
    | cons a l => rfl
  | some i => rfl

end ChatManager

/-! ## C5 — mid-stream failure leaves no assistant message -/

/--
C5.  For every prompt invocation on an active chat (in a duplicate-free
collection): the conversation afterwards carries exactly its old messages,
then the user message, then — if and only if the stream ran to exhaustion
(`streamOk = true`) — the single assistant message holding the fully
accumulated text.  When the stream fails mid-way (`streamOk = false`,
after any prefix of snapshots) no assistant message is appended, so
nothing of the partially accumulated text reaches the conversation or,
through `save`, the durable store.
-/
theorem c5_stream_failure_discards_partial_text
    (m m1 : ChatManager.ManagerState) (c : Chat) (input : String)
    (tempInput topKInput : ℚ) (chunks : List String) (streamOk : Bool)
    (now : Int) (newId : String)
    (hprompt : ChatManager.jsTrim input ≠ "")
    (hactive : ChatManager.getActiveChat m = (m1, some c))
    (hnodup : (m1.chats.map Chat.id).Nodup) :
    ∃ c', ChatManager.getChat
        (ScriptJs.promptModel m input tempInput topKInput chunks streamOk now newId) c.id
        = some c' ∧
      c'.messages = c.messages
        ++ [{ role := "user", content := ChatManager.jsTrim input, timestamp := now }]
        ++ (if streamOk then
              [{ role := "assistant", content := ScriptJs.streamResult chunks,
                 timestamp := now }]
            else []) := by
  obtain ⟨i, hfindi⟩ := ChatManager.getActiveChat_found hactive
  have hfindi' : m1.chats.find? (fun chat => chat.id == i) = some c := hfindi
  have hci : c.id = i :=
    beq_iff_eq.mp (List.find?_some (p := fun chat => chat.id == i) (a := c) hfindi')
  have hfindc : ChatManager.getChat m1 c.id = some c := by rw [hci]; exact hfindi
  have h1 := ChatManager.addMessage_spec "user" (ChatManager.jsTrim input) now hfindc hnodup
  simp only [ScriptJs.promptModel, hactive, if_neg hprompt]
  cases streamOk with
  | false =>
    refine ⟨ChatManager.appendedChat c "user" (ChatManager.jsTrim input) now, ?_, ?_⟩
    · simpa using h1.2.1
    · simp [ChatManager.appendedChat]
  | true =>
    have h2 := ChatManager.addMessage_spec "assistant" (ScriptJs.streamResult chunks) now
      h1.2.1 h1.2.2
    refine ⟨ChatManager.appendedChat
        (ChatManager.appendedChat c "user" (ChatManager.jsTrim input) now)
        "assistant" (ScriptJs.streamResult chunks) now, ?_, ?_⟩
    · simpa using h2.2.1
    · simp [ChatManager.appendedChat]

/-- C5, witness: one exhausted stream records the accumulated text as the
assistant message; one failed stream (same snapshots, thrown before
exhaustion) records no assistant message. -/
theorem c5_stream_failure_discards_partial_text_witness :
    (∃ c', ChatManager.getChat
        (ScriptJs.promptModel exampleFreshManager "Hi" 1 3 ["He", "Hell", "Hello"] true 5 "n")
        "c1" = some c' ∧
      c'.messages = [] ++ [{ role := "user", content := "Hi", timestamp := 5 }]
        ++ [{ role := "assistant", content := ScriptJs.streamResult ["He", "Hell", "Hello"],
              timestamp := 5 }]) ∧
    (∃ c', ChatManager.getChat
        (ScriptJs.promptModel exampleFreshManager "Hi" 1 3 ["He", "Hell", "Hello"] false 5 "n")
        "c1" = some c' ∧
      c'.messages = [] ++ [{ role := "user", content := "Hi", timestamp := 5 }] ++ []) := by
  have h1 := c5_stream_failure_discards_partial_text exampleFreshManager exampleFreshManager
    exampleFreshChat "Hi" 1 3 ["He", "Hell", "Hello"] true 5 "n"
    (by decide) (by decide) (by decide)
  have h2 := c5_stream_failure_discards_partial_text exampleFreshManager exampleFreshManager
    exampleFreshChat "Hi" 1 3 ["He", "Hell", "Hello"] false 5 "n"
    (by decide) (by decide) (by decide)
  constructor
  · simpa [exampleFreshChat, ChatManager.jsTrim] using h1
  · simpa [exampleFreshChat, ChatManager.jsTrim] using h2

/-! ## C7 — deleting an existing conversation -/

/--
C7.  Deleting an existing conversation removes exactly that conversation
(the collection splits as `l1 ++ c :: l2` with nothing before `c`
carrying the id, and afterwards holds exactly `l1 ++ l2` up to the
recency reordering done by `save`); if the deleted conversation was
active, the active pointer moves to the first element of the remaining
collection (`none` when it becomes empty), and if it was not active the
active pointer is unchanged.
-/
theorem c7_delete_existing_conversation
    (m : ChatManager.ManagerState) (chatId : String) (c : Chat)
    (hfind : ChatManager.getChat m chatId = some c) :
    (ChatManager.deleteChat m chatId).2 = true ∧
    ∃ l1 l2, m.chats = l1 ++ c :: l2 ∧ (∀ x ∈ l1, x.id ≠ chatId) ∧
      (ChatManager.deleteChat m chatId).1.chats.Perm (l1 ++ l2) ∧
      (m.activeChat = some chatId →
        (ChatManager.deleteChat m chatId).1.activeChat = (l1 ++ l2).head?.map Chat.id) ∧
      (m.activeChat ≠ some chatId →
        (ChatManager.deleteChat m chatId).1.activeChat = m.activeChat) := by
  have hfind' : m.chats.find? (fun chat => chat.id == chatId) = some c := hfind
  have hpc : (c.id == chatId) = true :=
    List.find?_some (p := fun chat => chat.id == chatId) (a := c) hfind'
  have hmem := List.mem_of_find?_eq_some hfind'
  cases hsp : ChatManager.spliceOut (fun chat => chat.id == chatId) m.chats with
  | none =>
    exact absurd hpc (by rw [ChatManager.spliceOut_none_forall hsp c hmem]; simp)
  | some chats' =>
    obtain ⟨l1, x, l2, hsplit, hpx, hclean, hres⟩ := ChatManager.spliceOut_some hsp
    have hcx : c = x := by
      have hx := ChatManager.find?_clean_append l2 hpx l1 hclean
      rw [hsplit] at hfind'
      exact Option.some_inj.mp (hfind'.symm.trans hx)
    subst hcx
    simp only [ChatManager.deleteChat, hsp]
    refine ⟨trivial, l1, l2, hsplit, ?_, ?_, ?_, ?_⟩
    · intro x hx
      have := hclean x hx
      exact beq_eq_false_iff_ne.mp this
    · show (sortByRecency chats').Perm (l1 ++ l2)
      rw [hres]
      exact sortByRecency_perm (l1 ++ l2)
    · intro hact
      show (if m.activeChat = some chatId then chats'.head?.map Chat.id
        else m.activeChat) = (l1 ++ l2).head?.map Chat.id
      rw [if_pos hact, hres]
    · intro hact
      show (if m.activeChat = some chatId then chats'.head?.map Chat.id
        else m.activeChat) = m.activeChat
      rw [if_neg hact]

/-- C7, witness: deleting the active chat `"a"` from a concrete two-chat
manager reports `true`, removes exactly that chat, and activates the first
remaining chat. -/
theorem c7_delete_existing_conversation_witness :
    (ChatManager.deleteChat exampleManager "a").2 = true ∧
    ∃ l1 l2, exampleManager.chats = l1 ++ exampleChatOld :: l2 ∧
      (∀ x ∈ l1, x.id ≠ "a") ∧
      (ChatManager.deleteChat exampleManager "a").1.chats.Perm (l1 ++ l2) ∧
      (exampleManager.activeChat = some "a" →
        (ChatManager.deleteChat exampleManager "a").1.activeChat
          = (l1 ++ l2).head?.map Chat.id) ∧
      (exampleManager.activeChat ≠ some "a" →
        (ChatManager.deleteChat exampleManager "a").1.activeChat
          = exampleManager.activeChat) :=
  c7_delete_existing_conversation exampleManager "a" exampleChatOld (by decide)
